import Mathlib

/-!
Shallow embedding of the inquiry-form backend (`src/server.ts`) of the
Kumagaya Kids English repository.

Strings are modelled through their character lists (`String.data`);
JavaScript string primitives (`trim`, `toLowerCase`, `replace` with the
regexes appearing in the source) are embedded as executable functions on
`List Char`.  The request handler `POST /api/inquiry` is embedded as a pure
function of the raw request body together with the boolean results of the
two outbound calls (Telegram notification, confirmation email); the
response and the call flags are collected in a record.
-/

namespace KumagayaKids

/-- C code points of the JavaScript whitespace set (the `WhiteSpace` and
`LineTerminator` productions), which is the set removed by
`String.prototype.trim` and matched by the regex class `\s`:
tab 9, LF 10, VT 11, FF 12, CR 13, space 32, NBSP 160, U+1680,
U+2000..U+200A, U+2028, U+2029, U+202F, U+205F, U+3000, U+FEFF. -/
def isJsWhitespace (c : Char) : Bool :=
  c.toNat = 9 || c.toNat = 10 || c.toNat = 11 || c.toNat = 12 || c.toNat = 13 ||
  c.toNat = 32 || c.toNat = 160 || c.toNat = 0x1680 ||
  (0x2000 ≤ c.toNat && c.toNat ≤ 0x200A) ||
  c.toNat = 0x2028 || c.toNat = 0x2029 || c.toNat = 0x202F ||
  c.toNat = 0x205F || c.toNat = 0x3000 || c.toNat = 0xFEFF

/-- Drop JS whitespace from the front of a character list
(`String.prototype.trimStart`). -/
def trimLeftL (l : List Char) : List Char := l.dropWhile isJsWhitespace

/-- Drop JS whitespace from the end of a character list
(`String.prototype.trimEnd`). -/
def trimRightL (l : List Char) : List Char :=
  (l.reverse.dropWhile isJsWhitespace).reverse

/-- Both-ends trim on character lists. -/
def trimL (l : List Char) : List Char := trimRightL (trimLeftL l)

/-- JavaScript `String.prototype.trim`. -/
def jsTrim (s : String) : String := String.mk (trimL s.data)

/-- Lowercasing of one character: `String.prototype.toLowerCase`,
modelled on the ASCII range (code points 65–90 map to 97–122, everything
else is left unchanged). -/
def jsLowerChar (c : Char) : Char :=
  if 65 ≤ c.toNat ∧ c.toNat ≤ 90 then Char.ofNat (c.toNat + 32) else c

/-- JavaScript `String.prototype.toLowerCase` (character-wise). -/
def jsToLower (s : String) : String := String.mk (s.data.map jsLowerChar)

/-- The escape map of `sanitizeInput` (`server.ts` lines 52–61): the callback
of `replace(/[&<>"']/g, ...)` returns the HTML entity for each of the five
matched characters; characters outside the class are left in place. -/
def escapeChar (c : Char) : String :=
  if c = '&' then "&amp;"
  else if c = '<' then "&lt;"
  else if c = '>' then "&gt;"
  else if c = '"' then "&quot;"
  else if c = '\'' then "&#x27;"
  else String.mk [c]

/-- Result of the global replacement: each character is replaced by its
image under `escapeChar`, and the pieces are concatenated. -/
def escapeList : List Char → List Char
  | [] => []
  | c :: t => (escapeChar c).data ++ escapeList t

/-- `replace(/[<>]/g, '')` of `server.ts` line 51: every angle-bracket
character is deleted. -/
def removeAngles (l : List Char) : List Char :=
  l.filter (fun c => !(c == '<' || c == '>'))

/-- `sanitizeInput` (`server.ts` lines 47–62), string case: trim, delete
angle brackets, then entity-escape `& < > " '`. -/
def sanitizeInput (s : String) : String :=
  String.mk (escapeList (removeAngles (jsTrim s).data))

/-- Character class `[\d+\-() ]` of `sanitizePhone` (`server.ts` line 65). -/
def isPhoneChar (c : Char) : Bool :=
  c.isDigit || c == '+' || c == '-' || c == '(' || c == ')' || c == ' '

/-- `sanitizePhone` (`server.ts` lines 64–66): `phone.replace(/[^\d+\-() ]/g, '')`
keeps only digits, `+`, `-`, `(`, `)` and space. -/
def sanitizePhone (s : String) : String :=
  String.mk (s.data.filter isPhoneChar)

/-- `sanitizeEmail` (`server.ts` lines 68–70): `email.toLowerCase().trim()`. -/
def sanitizeEmail (s : String) : String := jsTrim (jsToLower s)

/-- A JavaScript runtime value as it may arrive in a JSON request body:
the cases the sanitizers can meet at runtime. -/
inductive JSVal where
  | str (s : String)
  | num (n : Int)
  | boolean (b : Bool)
  | null
  | undef
deriving DecidableEq

/-- `sanitizeInput` on an arbitrary runtime value: the guard
`if (typeof input !== 'string') return ''` (`server.ts` line 48) makes it
total, returning the empty string on every non-string value. -/
def sanitizeInputJS : JSVal → String
  | .str s => sanitizeInput s
  | _ => ""

/-- `sanitizePhone` on an arbitrary runtime value: the body immediately
calls `phone.replace(...)`, which raises a `TypeError` when `phone` is not
a string (there is no guard in `server.ts` lines 64–66). -/
def sanitizePhoneJS : JSVal → Except String String
  | .str s => Except.ok (sanitizePhone s)
  | _ => Except.error "TypeError"

/-- `sanitizeEmail` on an arbitrary runtime value: `email.toLowerCase()`
raises a `TypeError` on non-string values (no guard in `server.ts`
lines 68–70). -/
def sanitizeEmailJS : JSVal → Except String String
  | .str s => Except.ok (sanitizeEmail s)
  | _ => Except.error "TypeError"

/-- Sanitized inquiry data (`InquiryFormData` of `server.ts` lines 7–15, as
produced by the handler: `message` is always a string by then). -/
structure InquiryFormData where
  parentName : String
  childName : String
  childAge : Int
  email : String
  phone : String
  preferredProgram : String
  message : String
deriving DecidableEq

/-- `FormattedInquiry` (`server.ts` lines 17–26). -/
structure FormattedInquiry where
  parentName : String
  childName : String
  childAge : Int
  email : String
  phone : String
  preferredProgram : String
  message : String
  formattedText : String
deriving DecidableEq

/-- The `programNames` lookup table of `formatInquiry`
(`server.ts` lines 74–81). -/
def programNames : List (String × String) :=
  [("toddlers", "Toddlers (Ages 2-3)"),
   ("preschool", "Preschool (Ages 4-5)"),
   ("lower-elementary", "Lower Elementary (Ages 6-8)"),
   ("upper-elementary", "Upper Elementary (Ages 9-12)"),
   ("not-sure", "Not sure yet"),
   ("", "Not specified")]

/-- `programNames[data.preferredProgram] || data.preferredProgram`
(`server.ts` line 83), restricted to own-property access: a table key
yields its (truthy) label and any other key falls back to the raw program
string.  This restriction is exact except when the key names an inherited
`Object.prototype` member; the unrestricted member access, prototype chain
included, is `resolveProgramJS` below, and `resolveProgram_agrees` states
exactly where the two coincide.  The handler reaches this lookup only with
validated keys, which are own keys of the table. -/
def resolveProgram (p : String) : String :=
  match programNames.lookup p with
  | some v => if v = "" then p else v
  | none => p

/-- The property names every plain object literal inherits from
`Object.prototype` (ECMAScript, Annex B accessors included): a member
access with one of these names on `programNames` yields the inherited
function or object, which is truthy and not a string. -/
def objectPrototypeKeys : List String :=
  ["constructor", "hasOwnProperty", "isPrototypeOf", "propertyIsEnumerable",
   "toLocaleString", "toString", "valueOf", "__proto__",
   "__defineGetter__", "__defineSetter__", "__lookupGetter__", "__lookupSetter__"]

/-- What a JavaScript member access `programNames[p]` can produce: an own
string property, an inherited `Object.prototype` member (a truthy
function or object, not a string), or `undefined`. -/
inductive JsMemberValue where
  | str (s : String)
  | protoMember (name : String)
  | undef
deriving DecidableEq

/-- The member access `programNames[p]` with the prototype chain: own keys
first, then the inherited `Object.prototype` members, else `undefined`. -/
def programNamesGet (p : String) : JsMemberValue :=
  match programNames.lookup p with
  | some v => JsMemberValue.str v
  | none =>
    if p ∈ objectPrototypeKeys then JsMemberValue.protoMember p
    else JsMemberValue.undef

/-- `programNames[data.preferredProgram] || data.preferredProgram`
(`server.ts` line 83) with the prototype chain: a falsy access result
(`undefined`, or an empty-string value) falls back to the raw key, while a
truthy inherited member is kept — so a key naming an `Object.prototype`
member does not fall back to the verbatim string. -/
def resolveProgramJS (p : String) : JsMemberValue :=
  match programNamesGet p with
  | JsMemberValue.str v => if v = "" then JsMemberValue.str p else JsMemberValue.str v
  | JsMemberValue.protoMember n => JsMemberValue.protoMember n
  | JsMemberValue.undef => JsMemberValue.str p

/-- The placeholder used when `message` is falsy (`server.ts` line 84). -/
def defaultMessage : String := "No additional message provided."

/-- `const message = data.message || '...'` (`server.ts` line 84): the
truthiness test on the (always string-valued, by the handler) message. -/
def messageOrDefault (m : String) : String :=
  if m = "" then defaultMessage else m

/-- The template literal of `formatInquiry` (`server.ts` lines 86–106)
before the final `.trim()`: the fixed multi-line skeleton with the record
fields, the resolved program label, the defaulted message and the
timestamp interpolated. -/
def preTrimText (data : InquiryFormData) (now : String) : String :=
  "\n📚 *New Inquiry - Kumagaya Kids English*\n\n👨‍👩‍👧 *Parent Information:*\n• Name: "
    ++ data.parentName
    ++ "\n• Email: " ++ data.email
    ++ "\n• Phone: " ++ data.phone
    ++ "\n\n👶 *Child Information:*\n• Name: " ++ data.childName
    ++ "\n• Age: " ++ toString data.childAge ++ " years old"
    ++ "\n\n📖 *Program Interest:*\n" ++ resolveProgram data.preferredProgram
    ++ "\n\n💬 *Message:*\n" ++ messageOrDefault data.message
    ++ "\n\n---\n_Received at " ++ now ++ "_\n    "

/-- `formatInquiry` (`server.ts` lines 73–113).  The timestamp inserted by
`new Date().toLocaleString(...)` is non-deterministic; it enters the
embedding as the parameter `now`. -/
def formatInquiry (data : InquiryFormData) (now : String) : FormattedInquiry :=
  let message := messageOrDefault data.message
  let formattedText := jsTrim (preTrimText data now)
  { parentName := data.parentName
    childName := data.childName
    childAge := data.childAge
    email := data.email
    phone := data.phone
    preferredProgram := data.preferredProgram
    message := message
    formattedText := formattedText }

/-- One entry of the error array returned by `validationResult(req)`:
the field (`path`) and the `withMessage` text. -/
structure ValidationError where
  field : String
  msg : String
deriving DecidableEq

/-- The raw JSON request body, field by field; `none` models an absent
(`undefined`) field.  `childAge` is `some n` exactly when the request
carried an integral value (the only values `isInt` accepts). -/
structure RawInquiry where
  parentName : Option String
  childName : Option String
  childAge : Option Int
  email : Option String
  phone : Option String
  preferredProgram : Option String
  message : Option String

/-- The name pattern of `server.ts` lines 155 and 161:
`^[a-zA-Z\s぀-ゟ゠-ヿ一-龯]+$`. -/
def isNameChar (c : Char) : Bool :=
  (97 ≤ c.toNat && c.toNat ≤ 122) || (65 ≤ c.toNat && c.toNat ≤ 90) ||
  isJsWhitespace c ||
  (0x3040 ≤ c.toNat && c.toNat ≤ 0x309F) ||
  (0x30A0 ≤ c.toNat && c.toNat ≤ 0x30FF) ||
  (0x4E00 ≤ c.toNat && c.toNat ≤ 0x9FAF)

/-- Full-string match against the name pattern: at least one character and
every character in the class. -/
def nameMatches (s : String) : Bool :=
  !s.data.isEmpty && s.data.all isNameChar

/-- Validation chain for `parentName` / `childName`
(`server.ts` lines 151–161): `trim` sanitizes the value, then `notEmpty`,
`isLength {min 2, max 100}` and `matches` each contribute an error when
they fail (`express-validator` runs every validator of a chain; errors
accumulate).  An absent field is stringified to the empty string. -/
def nameErrors (field label : String) (v : Option String) : List ValidationError :=
  let t := jsTrim (v.getD "")
  (if t = "" then [⟨field, label ++ " is required"⟩] else []) ++
  (if t.length < 2 ∨ 100 < t.length
    then [⟨field, label ++ " must be between 2 and 100 characters"⟩] else []) ++
  (if nameMatches t then [] else [⟨field, label ++ " contains invalid characters"⟩])

/-- `body('childAge').isInt({ min: 2, max: 12 })` (`server.ts`
lines 163–164): an absent or non-integral value, or an integer outside
2–12, produces the single range error. -/
def childAgeErrors (v : Option Int) : List ValidationError :=
  match v with
  | some n =>
    if 2 ≤ n ∧ n ≤ 12 then []
    else [⟨"childAge", "Child age must be between 2 and 12 years"⟩]
  | none => [⟨"childAge", "Child age must be between 2 and 12 years"⟩]

/-- Modelled from the spec: the third-party `validator.js` `isEmail` check
(library code, not in `src/`), "syntactically valid email address",
simplified to: exactly one `@`, non-empty local part, domain containing a
dot, not starting or ending with one, and no whitespace anywhere. -/
def isEmailModel (s : String) : Bool :=
  match s.data.splitOn '@' with
  | [lp, dp] =>
    !lp.isEmpty && !dp.isEmpty && dp.contains '.' &&
    !(dp.head? = some '.') && !(dp.getLast? = some '.') &&
    (lp ++ dp).all (fun c => !isJsWhitespace c)
  | _ => false

/-- Validation chain for `email` (`server.ts` lines 166–170): `trim`, then
`notEmpty` and `isEmail` (the trailing `normalizeEmail` is a sanitizer and
adds no error). -/
def emailErrors (v : Option String) : List ValidationError :=
  let t := jsTrim (v.getD "")
  (if t = "" then [⟨"email", "Email is required"⟩] else []) ++
  (if isEmailModel t then [] else [⟨"email", "Please provide a valid email address"⟩])

/-- Full-string match against `^[\d+\-() ]{10,20}$` (`server.ts` line 175). -/
def phoneMatches (s : String) : Bool :=
  10 ≤ s.length && s.length ≤ 20 && s.data.all isPhoneChar

/-- Validation chain for `phone` (`server.ts` lines 172–175): `trim`, then
`notEmpty` and the pattern match. -/
def phoneErrors (v : Option String) : List ValidationError :=
  let t := jsTrim (v.getD "")
  (if t = "" then [⟨"phone", "Phone number is required"⟩] else []) ++
  (if phoneMatches t then [] else [⟨"phone", "Please provide a valid phone number"⟩])

/-- The closed value set of `body('preferredProgram').isIn(...)`
(`server.ts` line 179). -/
def allowedPrograms : List String :=
  ["toddlers", "preschool", "lower-elementary", "upper-elementary", "not-sure", ""]

/-- Validation chain for `preferredProgram` (`server.ts` lines 177–179):
`optional()` skips an absent field; a present value must be in the set. -/
def programErrors (v : Option String) : List ValidationError :=
  match v with
  | none => []
  | some p =>
    if p ∈ allowedPrograms then []
    else [⟨"preferredProgram", "Invalid program selection"⟩]

/-- Validation chain for `message` (`server.ts` lines 181–184):
`optional()` skips an absent field; present values are trimmed, then
`isLength {max 1000}` checks the bound. -/
def messageErrors (v : Option String) : List ValidationError :=
  match v with
  | none => []
  | some m =>
    if (jsTrim m).length ≤ 1000 then []
    else [⟨"message", "Message must not exceed 1000 characters"⟩]

/-- `inquiryValidation` (`server.ts` lines 150–185) followed by
`validationResult(req)`: the per-field error lists in field-declaration
order. -/
def validateInquiry (r : RawInquiry) : List ValidationError :=
  nameErrors "parentName" "Parent name" r.parentName ++
  nameErrors "childName" "Child name" r.childName ++
  childAgeErrors r.childAge ++
  emailErrors r.email ++
  phoneErrors r.phone ++
  programErrors r.preferredProgram ++
  messageErrors r.message

/-- Modelled from the spec: the third-party `normalizeEmail` sanitizer
(library code, not in `src/`), "case-normalized before storage",
simplified to lowercasing. -/
def normalizeEmailModel (s : String) : String := jsToLower s

/-- The request body after the validation middleware ran: the chain
sanitizers (`trim` on the name, email, phone and message fields,
`normalizeEmail` on email) have mutated `req.body` in place;
`childAge` and `preferredProgram` have no sanitizers. -/
def mutatedBody (r : RawInquiry) : RawInquiry :=
  { parentName := r.parentName.map jsTrim
    childName := r.childName.map jsTrim
    childAge := r.childAge
    email := r.email.map (fun e => normalizeEmailModel (jsTrim e))
    phone := r.phone.map jsTrim
    preferredProgram := r.preferredProgram
    message := r.message.map jsTrim }

/-- `sanitizedData` (`server.ts` lines 203–211).  On the success path every
required field is present; the `getD` defaults are the unreachable
`undefined` cases (`sanitizeInput(undefined)` is `''` by its guard;
`childAge` passed `isInt`, so it is present).  `preferredProgram || ''`
and the ternary on `message` are the JavaScript truthiness tests. -/
def sanitizeBody (b : RawInquiry) : InquiryFormData :=
  { parentName := sanitizeInput (b.parentName.getD "")
    childName := sanitizeInput (b.childName.getD "")
    childAge := b.childAge.getD 0
    email := sanitizeEmail (b.email.getD "")
    phone := sanitizePhone (b.phone.getD "")
    preferredProgram := b.preferredProgram.getD ""
    message := match b.message with
      | none => ""
      | some m => if m = "" then "" else sanitizeInput m }

/-- The JSON body of the HTTP reply (`ApiResponse` of `server.ts`
lines 28–32, plus the `errors` array of the 400 branch), together with the
status code. -/
structure ApiReply where
  status : Nat
  success : Bool
  message : Option String
  error : Option String
  errors : List ValidationError
deriving DecidableEq

/-- The fixed acknowledgment text of the 200 branch (`server.ts` line 237). -/
def ackMessage : String :=
  "Thank you! Your inquiry has been received. We will contact you within 24 hours."

/-- What one run of the `POST /api/inquiry` handler did: the reply sent,
whether each outbound call was made, and the formatted inquiry it built
(when it built one). -/
structure HandlerOutcome where
  reply : ApiReply
  telegramCalled : Bool
  emailCalled : Bool
  formatted : Option FormattedInquiry
deriving DecidableEq

/-- The `POST /api/inquiry` handler (`server.ts` lines 188–247) as a pure
function.  `tg` and `em` are the boolean results of `sendToTelegram` and
`sendConfirmationEmail` (both functions catch internally and only return a
boolean); `now` is the format-time timestamp.  A non-empty error list
returns 400 at once; otherwise the body is sanitized, formatted, both
outbound calls are made, and the fixed 200 acknowledgment is sent whatever
`tg` and `em` were. -/
def handleInquiry (r : RawInquiry) (tg em : Bool) (now : String) : HandlerOutcome :=
  let errs := validateInquiry r
  if errs = [] then
    let b := mutatedBody r
    let sanitizedData := sanitizeBody b
    let formattedInquiry := formatInquiry sanitizedData now
    { reply := { status := 200, success := true, message := some ackMessage,
                 error := none, errors := [] }
      telegramCalled := true
      emailCalled := true
      formatted := some formattedInquiry }
  else
    { reply := { status := 400, success := false, message := none,
                 error := some "Validation failed", errors := errs }
      telegramCalled := false
      emailCalled := false
      formatted := none }

/-- A request body with every field absent: every required-field rule
fails. -/
def badRaw : RawInquiry :=
  ⟨none, none, none, none, none, none, none⟩

/-- The end-to-end scenario record of the spec: a fully valid request
body. -/
def goodRaw : RawInquiry :=
  { parentName := some "Jane Doe"
    childName := some "Tom Doe"
    childAge := some 5
    email := some "A@Example.com"
    phone := some "+81-90-1234-5678"
    preferredProgram := some "toddlers"
    message := some "" }

/-- Substring containment: `sub` occurs verbatim inside `s`. -/
def strContains (s sub : String) : Prop :=
  ∃ u v, s.data = u ++ sub.data ++ v

/-! Helper lemmas. -/

theorem mem_ite_singleton {α : Type} {e x : α} {c : Prop} [Decidable c]
    (h : e ∈ (if c then [x] else ([] : List α))) : e = x := by
  split at h <;> simp_all

theorem nameErrors_field {e : ValidationError} {f l : String} {v : Option String}
    (h : e ∈ nameErrors f l v) : e.field = f := by
  unfold nameErrors at h
  simp only [List.mem_append] at h
  rcases h with (h | h) | h
  · rw [mem_ite_singleton h]
  · rw [mem_ite_singleton h]
  · split at h <;> simp_all

theorem emailErrors_field {e : ValidationError} {v : Option String}
    (h : e ∈ emailErrors v) : e.field = "email" := by
  unfold emailErrors at h
  simp only [List.mem_append] at h
  rcases h with h | h
  · rw [mem_ite_singleton h]
  · split at h <;> simp_all

theorem phoneErrors_field {e : ValidationError} {v : Option String}
    (h : e ∈ phoneErrors v) : e.field = "phone" := by
  unfold phoneErrors at h
  simp only [List.mem_append] at h
  rcases h with h | h
  · rw [mem_ite_singleton h]
  · split at h <;> simp_all

theorem programErrors_field {e : ValidationError} {v : Option String}
    (h : e ∈ programErrors v) : e.field = "preferredProgram" := by
  unfold programErrors at h
  cases v with
  | none => simp_all
  | some p => split at h <;> simp_all

theorem messageErrors_field {e : ValidationError} {v : Option String}
    (h : e ∈ messageErrors v) : e.field = "message" := by
  unfold messageErrors at h
  cases v with
  | none => simp_all
  | some m => split at h <;> simp_all

theorem childAgeErrors_mem_validate {r : RawInquiry} {e : ValidationError}
    (h : e ∈ childAgeErrors r.childAge) : e ∈ validateInquiry r := by
  unfold validateInquiry
  simp only [List.mem_append, or_assoc]
  exact Or.inr (Or.inr (Or.inl h))

theorem validate_nil_program {r : RawInquiry} (h : validateInquiry r = []) :
    programErrors r.preferredProgram = [] := by
  unfold validateInquiry at h
  simp only [List.append_eq_nil] at h
  exact h.1.2

/-! Claim theorems. -/

/-- C1: when the validator produces at least one `ValidationError`, the
handler responds 400 with `success: false`, the error marker and the
structured error list, makes neither outbound call, and builds no
formatted (sanitization-dependent) record. -/
theorem inquiry_reject_no_side_effects (r : RawInquiry) (tg em : Bool) (now : String)
    (h : validateInquiry r ≠ []) :
    (handleInquiry r tg em now).reply.status = 400 ∧
    (handleInquiry r tg em now).reply.success = false ∧
    (handleInquiry r tg em now).reply.error = some "Validation failed" ∧
    (handleInquiry r tg em now).reply.errors = validateInquiry r ∧
    (handleInquiry r tg em now).telegramCalled = false ∧
    (handleInquiry r tg em now).emailCalled = false ∧
    (handleInquiry r tg em now).formatted = none := by
  simp [handleInquiry, if_neg h]

/-- C1 witness: the all-fields-absent body fails validation and is
rejected with no outbound calls. -/
theorem inquiry_reject_no_side_effects_witness :
    validateInquiry badRaw ≠ [] ∧
    (handleInquiry badRaw true true "t").reply.status = 400 ∧
    (handleInquiry badRaw true true "t").telegramCalled = false ∧
    (handleInquiry badRaw true true "t").emailCalled = false :=
  ⟨by decide,
   (inquiry_reject_no_side_effects badRaw true true "t" (by decide)).1,
   (inquiry_reject_no_side_effects badRaw true true "t" (by decide)).2.2.2.2.1,
   (inquiry_reject_no_side_effects badRaw true true "t" (by decide)).2.2.2.2.2.1⟩

/-- C2: when validation passes, the handler replies 200 with
`success: true` and the fixed acknowledgment, for every combination of the
Telegram and confirmation-email results — delivery failure is never
surfaced. -/
theorem inquiry_success_despite_failures (r : RawInquiry) (tg em : Bool) (now : String)
    (h : validateInquiry r = []) :
    (handleInquiry r tg em now).reply.status = 200 ∧
    (handleInquiry r tg em now).reply.success = true ∧
    (handleInquiry r tg em now).reply.message = some ackMessage ∧
    (handleInquiry r tg em now).reply.error = none ∧
    (handleInquiry r tg em now).telegramCalled = true ∧
    (handleInquiry r tg em now).emailCalled = true := by
  simp [handleInquiry, if_pos h]

/-- C2 witness: the valid sample body gets the 200 acknowledgment even when
the Telegram call reports failure (`tg = false`, `em = false`). -/
theorem inquiry_success_despite_failures_witness :
    validateInquiry goodRaw = [] ∧
    (handleInquiry goodRaw false false "t").reply.status = 200 ∧
    (handleInquiry goodRaw false false "t").reply.success = true ∧
    (handleInquiry goodRaw false false "t").reply.message = some ackMessage :=
  ⟨by decide,
   (inquiry_success_despite_failures goodRaw false false "t" (by decide)).1,
   (inquiry_success_despite_failures goodRaw false false "t" (by decide)).2.1,
   (inquiry_success_despite_failures goodRaw false false "t" (by decide)).2.2.1⟩

/-- C4 counterexample: the claim says all three sanitizers never fail on
any input, non-strings included; but `sanitizePhone` and `sanitizeEmail`
raise a `TypeError` on `null` (only `sanitizeInput` has the non-string
guard). -/
theorem sanitize_total_counterexample :
    sanitizePhoneJS JSVal.null = Except.error "TypeError" ∧
    sanitizeEmailJS JSVal.null = Except.error "TypeError" ∧
    sanitizeInputJS JSVal.null = "" :=
  ⟨rfl, rfl, rfl⟩

/-- C4 (amended): `sanitizeText` is total on every runtime value and
returns the empty string on non-strings; `sanitizePhone` and
`sanitizeEmail` are pure, deterministic and total on string inputs, but
raise a `TypeError` on every non-string value. -/
theorem sanitize_total_amended :
    (∀ s : String, sanitizeInputJS (JSVal.str s) = sanitizeInput s) ∧
    (∀ v : JSVal, (∀ s, v ≠ JSVal.str s) → sanitizeInputJS v = "") ∧
    (∀ s : String, sanitizePhoneJS (JSVal.str s) = Except.ok (sanitizePhone s) ∧
      sanitizeEmailJS (JSVal.str s) = Except.ok (sanitizeEmail s)) ∧
    (∀ v : JSVal, (∀ s, v ≠ JSVal.str s) →
      sanitizePhoneJS v = Except.error "TypeError" ∧
      sanitizeEmailJS v = Except.error "TypeError") := by
  refine ⟨fun s => rfl, ?_, fun s => ⟨rfl, rfl⟩, ?_⟩
  · intro v hv
    cases v with
    | str s => exact absurd rfl (hv s)
    | num n => rfl
    | boolean b => rfl
    | null => rfl
    | undef => rfl
  · intro v hv
    cases v with
    | str s => exact absurd rfl (hv s)
    | num n => exact ⟨rfl, rfl⟩
    | boolean b => exact ⟨rfl, rfl⟩
    | null => exact ⟨rfl, rfl⟩
    | undef => exact ⟨rfl, rfl⟩

/-- C4 witness: the amended statement at the concrete non-string value
`5` and the concrete string phone number. -/
theorem sanitize_total_amended_witness :
    (∀ s, JSVal.num 5 ≠ JSVal.str s) ∧
    sanitizeInputJS (JSVal.num 5) = "" ∧
    sanitizePhoneJS (JSVal.num 5) = Except.error "TypeError" ∧
    sanitizePhoneJS (JSVal.str "090-1234-5678") = Except.ok (sanitizePhone "090-1234-5678") :=
  ⟨fun s h => JSVal.noConfusion h,
   sanitize_total_amended.2.1 (JSVal.num 5) (fun s h => JSVal.noConfusion h),
   (sanitize_total_amended.2.2.2 (JSVal.num 5) (fun s h => JSVal.noConfusion h)).1,
   (sanitize_total_amended.2.2.1 "090-1234-5678").1⟩

/-- C5: a request body has no `childAge` validation error exactly when the
field carries an integer between 2 and 12 inclusive; 1 and 13 are
rejected, 2 and 12 accepted. -/
theorem childAge_rule :
    (∀ r : RawInquiry,
      ((validateInquiry r).filter (fun e => e.field == "childAge") = [] ↔
        ∃ n : Int, r.childAge = some n ∧ 2 ≤ n ∧ n ≤ 12)) ∧
    childAgeErrors (some 1) ≠ [] ∧ childAgeErrors (some 13) ≠ [] ∧
    childAgeErrors (some 2) = [] ∧ childAgeErrors (some 12) = [] := by
  refine ⟨?_, by decide, by decide, by decide, by decide⟩
  intro r
  rw [List.filter_eq_nil_iff]
  constructor
  · intro h
    cases hv : r.childAge with
    | none =>
      exfalso
      refine h ⟨"childAge", "Child age must be between 2 and 12 years"⟩ ?_ (by decide)
      refine childAgeErrors_mem_validate ?_
      rw [hv]
      exact List.mem_singleton_self _
    | some n =>
      by_cases hn : 2 ≤ n ∧ n ≤ 12
      · exact ⟨n, rfl, hn⟩
      · exfalso
        refine h ⟨"childAge", "Child age must be between 2 and 12 years"⟩ ?_ (by decide)
        refine childAgeErrors_mem_validate ?_
        rw [hv]
        simp [childAgeErrors, hn]
  · rintro ⟨n, hv, hn⟩ e he
    unfold validateInquiry at he
    simp only [List.mem_append, or_assoc] at he
    rcases he with he | he | he | he | he | he | he
    · rw [nameErrors_field he]; decide
    · rw [nameErrors_field he]; decide
    · rw [hv] at he
      simp [childAgeErrors, hn] at he
    · rw [emailErrors_field he]; decide
    · rw [phoneErrors_field he]; decide
    · rw [programErrors_field he]; decide
    · rw [messageErrors_field he]; decide

theorem resolveProgram_agrees (p : String) (h : p ∉ objectPrototypeKeys) :
    resolveProgramJS p = JsMemberValue.str (resolveProgram p) := by
  unfold resolveProgramJS programNamesGet resolveProgram
  cases hl : programNames.lookup p with
  | none => simp [hl, h]
  | some v => by_cases hv : v = "" <;> simp [hl, hv]

/-- C6 counterexample: the claim says any unrecognized non-empty value
passes through verbatim, but the member access walks the prototype chain:
`programNames["toString"]` is the inherited, truthy
`Object.prototype.toString`, which `||` keeps, so `"toString"` is not a
table key yet does not resolve to the verbatim string. -/
theorem resolveProgram_proto_counterexample :
    programNames.lookup "toString" = none ∧ "toString" ≠ "" ∧
    resolveProgramJS "toString" = JsMemberValue.protoMember "toString" ∧
    resolveProgramJS "toString" ≠ JsMemberValue.str "toString" := by
  decide

/-- C6 (amended): the formatter resolves `preferredProgram` through the
fixed six-key table — `preschool` to its label, the empty string to the
`Not specified` label; an unrecognized non-empty value that does not name
an `Object.prototype` member (such as `xyz-unknown`) passes through
verbatim, while a value naming such a member resolves to the truthy
inherited member instead of the verbatim string. -/
theorem resolveProgram_table_amended :
    programNames.length = 6 ∧
    resolveProgramJS "preschool" = JsMemberValue.str "Preschool (Ages 4-5)" ∧
    resolveProgramJS "" = JsMemberValue.str "Not specified" ∧
    resolveProgramJS "xyz-unknown" = JsMemberValue.str "xyz-unknown" ∧
    (∀ p : String, p ≠ "" → programNames.lookup p = none →
      p ∉ objectPrototypeKeys → resolveProgramJS p = JsMemberValue.str p) ∧
    (∀ p : String, programNames.lookup p = none → p ∈ objectPrototypeKeys →
      resolveProgramJS p = JsMemberValue.protoMember p) := by
  refine ⟨by decide, by decide, by decide, by decide, ?_, ?_⟩
  · intro p _ hnone hproto
    simp [resolveProgramJS, programNamesGet, hnone, hproto]
  · intro p hnone hproto
    simp [resolveProgramJS, programNamesGet, hnone, hproto]

/-- C6 witness: the pass-through clause at the concrete unrecognized
non-prototype key, and the prototype clause at `valueOf`. -/
theorem resolveProgram_table_amended_witness :
    ("english-camp" ≠ "" ∧ programNames.lookup "english-camp" = none ∧
      "english-camp" ∉ objectPrototypeKeys) ∧
    resolveProgramJS "english-camp" = JsMemberValue.str "english-camp" ∧
    (programNames.lookup "valueOf" = none ∧ "valueOf" ∈ objectPrototypeKeys) ∧
    resolveProgramJS "valueOf" = JsMemberValue.protoMember "valueOf" :=
  ⟨⟨by decide, by decide, by decide⟩,
   resolveProgram_table_amended.2.2.2.2.1 "english-camp" (by decide) (by decide) (by decide),
   ⟨by decide, by decide⟩,
   resolveProgram_table_amended.2.2.2.2.2 "valueOf" (by decide) (by decide)⟩

/-- C9: a body that passes validation always hands `formatInquiry` a
`preferredProgram` drawn from the closed enumeration (with absence
defaulted to the empty string), so the resolved label always comes from
the lookup table and the verbatim fallback branch is unreachable through
the handler. -/
theorem valid_program_in_table (r : RawInquiry) (h : validateInquiry r = []) :
    (sanitizeBody (mutatedBody r)).preferredProgram ∈ allowedPrograms ∧
    (∃ v, programNames.lookup ((sanitizeBody (mutatedBody r)).preferredProgram) = some v ∧
      resolveProgram ((sanitizeBody (mutatedBody r)).preferredProgram) = v) ∧
    (∀ tg em now, (handleInquiry r tg em now).formatted =
      some (formatInquiry (sanitizeBody (mutatedBody r)) now)) := by
  have hp : programErrors r.preferredProgram = [] := validate_nil_program h
  have hmem : (sanitizeBody (mutatedBody r)).preferredProgram ∈ allowedPrograms := by
    show (r.preferredProgram.getD "") ∈ allowedPrograms
    cases hv : r.preferredProgram with
    | none => decide
    | some p =>
      rw [hv] at hp
      by_cases hm : p ∈ allowedPrograms
      · simpa using hm
      · simp [programErrors, hm] at hp
  refine ⟨hmem, ?_, fun tg em now => by simp only [handleInquiry, if_pos h]⟩
  have h6 := hmem
  simp only [allowedPrograms, List.mem_cons, List.not_mem_nil, or_false] at h6
  rcases h6 with h1 | h1 | h1 | h1 | h1 | h1 <;> rw [h1] <;> exact ⟨_, rfl, rfl⟩

/-- C9 witness: the valid sample body instantiates the invariant. -/
theorem valid_program_in_table_witness :
    validateInquiry goodRaw = [] ∧
    (sanitizeBody (mutatedBody goodRaw)).preferredProgram ∈ allowedPrograms :=
  ⟨by decide, (valid_program_in_table goodRaw (by decide)).1⟩

/-- C10: `formatInquiry` keeps every field of its input except `message`
(replaced by the placeholder exactly when empty) and only adds
`formattedText`. -/
theorem formatInquiry_frame (d : InquiryFormData) (now : String) :
    (formatInquiry d now).parentName = d.parentName ∧
    (formatInquiry d now).childName = d.childName ∧
    (formatInquiry d now).childAge = d.childAge ∧
    (formatInquiry d now).email = d.email ∧
    (formatInquiry d now).phone = d.phone ∧
    (formatInquiry d now).preferredProgram = d.preferredProgram ∧
    (formatInquiry d now).message = (if d.message = "" then defaultMessage else d.message) :=
  ⟨rfl, rfl, rfl, rfl, rfl, rfl, rfl⟩

theorem dropWhile_idem (p : Char → Bool) (l : List Char) :
    (l.dropWhile p).dropWhile p = l.dropWhile p := by
  induction l with
  | nil => rfl
  | cons a t ih =>
    by_cases h : p a
    · simp [List.dropWhile_cons, h, ih]
    · simp [List.dropWhile_cons, h]

theorem dropWhile_head_false (p : Char → Bool) (l : List Char) :
    l.dropWhile p = [] ∨ ∃ a t, l.dropWhile p = a :: t ∧ p a = false := by
  induction l with
  | nil => exact Or.inl rfl
  | cons a t ih =>
    by_cases h : p a
    · simpa [List.dropWhile_cons, h] using ih
    · exact Or.inr ⟨a, t, by simp [List.dropWhile_cons, h], by simp [h]⟩

theorem trimRightL_idem (l : List Char) : trimRightL (trimRightL l) = trimRightL l := by
  unfold trimRightL
  rw [List.reverse_reverse, dropWhile_idem]

theorem trimRightL_prefix (l : List Char) :
    l = trimRightL l ++ (l.reverse.takeWhile isJsWhitespace).reverse := by
  unfold trimRightL
  conv_lhs =>
    rw [← l.reverse_reverse,
      ← List.takeWhile_append_dropWhile isJsWhitespace l.reverse]
  rw [List.reverse_append]

theorem trimLeftL_trimRightL (l : List Char) :
    trimLeftL (trimRightL (trimLeftL l)) = trimRightL (trimLeftL l) := by
  rcases dropWhile_head_false isJsWhitespace l with h0 | ⟨a, t, ha, hpa⟩
  · unfold trimLeftL
    rw [h0]
    rfl
  · unfold trimLeftL
    rw [ha]
    cases hr : trimRightL (a :: t) with
    | nil => rfl
    | cons b u =>
      have hsplit := trimRightL_prefix (a :: t)
      rw [hr] at hsplit
      have hab : a = b := by
        rw [List.cons_append] at hsplit
        injection hsplit with h1 h2
      rw [hab] at hpa
      simp [List.dropWhile_cons, hpa]

theorem trimL_idem (l : List Char) : trimL (trimL l) = trimL l := by
  unfold trimL
  rw [trimLeftL_trimRightL, trimRightL_idem]

theorem lower_shift {m : Nat} (h65 : 65 ≤ m) (h90 : m ≤ 90) :
    (Char.ofNat (m + 32)).toNat = m + 32 := by
  interval_cases m <;> decide

theorem jsLowerChar_idem (c : Char) : jsLowerChar (jsLowerChar c) = jsLowerChar c := by
  unfold jsLowerChar
  by_cases h : 65 ≤ c.toNat ∧ c.toNat ≤ 90
  · rw [if_pos h, if_neg (by rw [lower_shift h.1 h.2]; omega)]
  · rw [if_neg h, if_neg h]

theorem isJsWhitespace_iff (c : Char) :
    isJsWhitespace c = true ↔
      (c.toNat = 9 ∨ c.toNat = 10 ∨ c.toNat = 11 ∨ c.toNat = 12 ∨ c.toNat = 13 ∨
       c.toNat = 32 ∨ c.toNat = 160 ∨ c.toNat = 0x1680 ∨
       (0x2000 ≤ c.toNat ∧ c.toNat ≤ 0x200A) ∨
       c.toNat = 0x2028 ∨ c.toNat = 0x2029 ∨ c.toNat = 0x202F ∨
       c.toNat = 0x205F ∨ c.toNat = 0x3000 ∨ c.toNat = 0xFEFF) := by
  unfold isJsWhitespace
  simp [Bool.or_eq_true, Bool.and_eq_true, decide_eq_true_eq, or_assoc, and_assoc]

theorem not_ws_of_alpha (c : Char) (h1 : 65 ≤ c.toNat) (h2 : c.toNat ≤ 122) :
    isJsWhitespace c = false := by
  rw [← Bool.not_eq_true, isJsWhitespace_iff]
  intro hws
  rcases hws with h | h | h | h | h | h | h | h | h | h | h | h | h | h | h <;> omega

theorem lower_not_ws (c : Char) : isJsWhitespace (jsLowerChar c) = isJsWhitespace c := by
  unfold jsLowerChar
  by_cases h : 65 ≤ c.toNat ∧ c.toNat ≤ 90
  · rw [if_pos h]
    have hd : (Char.ofNat (c.toNat + 32)).toNat = c.toNat + 32 := lower_shift h.1 h.2
    rw [not_ws_of_alpha (Char.ofNat (c.toNat + 32)) (by rw [hd]; omega) (by rw [hd]; omega),
      not_ws_of_alpha c (by omega) (by omega)]
  · rw [if_neg h]

theorem map_jsLower_idem (l : List Char) :
    (l.map jsLowerChar).map jsLowerChar = l.map jsLowerChar := by
  induction l with
  | nil => rfl
  | cons a t ih => simp [jsLowerChar_idem, ih]

theorem dropWhile_map_lower (l : List Char) :
    (l.map jsLowerChar).dropWhile isJsWhitespace =
      (l.dropWhile isJsWhitespace).map jsLowerChar := by
  induction l with
  | nil => rfl
  | cons a t ih =>
    by_cases h : isJsWhitespace a
    · simp [List.dropWhile_cons, lower_not_ws, h, ih]
    · simp [List.dropWhile_cons, lower_not_ws, h]

theorem trimL_map_lower (l : List Char) :
    trimL (l.map jsLowerChar) = (trimL l).map jsLowerChar := by
  unfold trimL trimRightL trimLeftL
  rw [dropWhile_map_lower, ← List.map_reverse, dropWhile_map_lower, ← List.map_reverse]

theorem dropWhile_append_left (p : Char → Bool) (a b : List Char)
    (h : ∃ x ∈ a, p x = false) : (a ++ b).dropWhile p = a.dropWhile p ++ b := by
  induction a with
  | nil =>
    rcases h with ⟨x, hx, _⟩
    exact absurd hx (List.not_mem_nil x)
  | cons c t ih =>
    by_cases hc : p c
    · rcases h with ⟨x, hx, hpx⟩
      rcases List.mem_cons.mp hx with rfl | hxt
      · simp [hc] at hpx
      · simp [List.cons_append, List.dropWhile_cons, hc, ih ⟨x, hxt, hpx⟩]
    · simp [List.cons_append, List.dropWhile_cons, hc]

theorem trimL_mid (a m z : List Char)
    (ha : ∃ x ∈ a, isJsWhitespace x = false)
    (hz : ∃ x ∈ z, isJsWhitespace x = false) :
    trimL (a ++ m ++ z) = trimLeftL a ++ m ++ trimRightL z := by
  have hz' : ∃ x ∈ z.reverse, isJsWhitespace x = false := by
    rcases hz with ⟨x, hx, hpx⟩
    exact ⟨x, List.mem_reverse.mpr hx, hpx⟩
  unfold trimL trimLeftL trimRightL
  rw [List.append_assoc, dropWhile_append_left _ _ _ ha]
  rw [List.reverse_append, List.reverse_append, List.append_assoc]
  rw [dropWhile_append_left _ _ _ hz']
  rw [List.reverse_append, List.reverse_append, List.reverse_reverse,
    List.reverse_reverse]

theorem trim_contains_mid (a m z S : List Char) (hS : S = a ++ m ++ z)
    (ha : ∃ x ∈ a, isJsWhitespace x = false)
    (hz : ∃ x ∈ z, isJsWhitespace x = false) :
    ∃ u v, trimL S = u ++ m ++ v :=
  ⟨trimLeftL a, trimRightL z, by rw [hS, trimL_mid a m z ha hz]⟩

theorem escapeChar_no_angle (c : Char) :
    '<' ∉ (escapeChar c).data ∧ '>' ∉ (escapeChar c).data := by
  unfold escapeChar
  by_cases h1 : c = '&'
  · rw [if_pos h1]; exact ⟨by decide, by decide⟩
  rw [if_neg h1]
  by_cases h2 : c = '<'
  · rw [if_pos h2]; exact ⟨by decide, by decide⟩
  rw [if_neg h2]
  by_cases h3 : c = '>'
  · rw [if_pos h3]; exact ⟨by decide, by decide⟩
  rw [if_neg h3]
  by_cases h4 : c = '"'
  · rw [if_pos h4]; exact ⟨by decide, by decide⟩
  rw [if_neg h4]
  by_cases h5 : c = '\''
  · rw [if_pos h5]; exact ⟨by decide, by decide⟩
  rw [if_neg h5]
  constructor <;> intro hm
  · exact h2 (List.mem_singleton.mp hm).symm
  · exact h3 (List.mem_singleton.mp hm).symm

theorem escapeList_no_angle (l : List Char) :
    '<' ∉ escapeList l ∧ '>' ∉ escapeList l := by
  induction l with
  | nil => exact ⟨List.not_mem_nil _, List.not_mem_nil _⟩
  | cons c t ih =>
    unfold escapeList
    constructor <;> intro hm <;> rcases List.mem_append.mp hm with hm | hm
    · exact (escapeChar_no_angle c).1 hm
    · exact ih.1 hm
    · exact (escapeChar_no_angle c).2 hm
    · exact ih.2 hm

theorem escapeList_removeAngles (l : List Char) :
    escapeList (removeAngles l) =
      (l.map (fun c =>
        if c = '<' ∨ c = '>' then []
        else if c = '&' then "&amp;".data
        else if c = '"' then "&quot;".data
        else if c = '\'' then "&#x27;".data
        else [c])).flatten := by
  induction l with
  | nil => rfl
  | cons c t ih =>
    rw [List.map_cons, List.flatten_cons]
    by_cases hang : c = '<' ∨ c = '>'
    · have hstep : removeAngles (c :: t) = removeAngles t := by
        rcases hang with h | h <;> simp [removeAngles, List.filter_cons, h]
      rw [hstep, ih, if_pos hang, List.nil_append]
    · have hlt : ¬ c = '<' := fun h => hang (Or.inl h)
      have hgt : ¬ c = '>' := fun h => hang (Or.inr h)
      have hstep : removeAngles (c :: t) = c :: removeAngles t := by
        simp [removeAngles, List.filter_cons, hlt, hgt]
      have hchar : (escapeChar c).data =
          (if c = '&' then "&amp;".data
           else if c = '"' then "&quot;".data
           else if c = '\'' then "&#x27;".data
           else [c]) := by
        unfold escapeChar
        by_cases h1 : c = '&' <;> by_cases h4 : c = '"' <;> by_cases h5 : c = '\'' <;>
          simp [h1, h4, h5, hlt, hgt]
      rw [hstep,
        show escapeList (c :: removeAngles t) =
          (escapeChar c).data ++ escapeList (removeAngles t) from rfl,
        ih, if_neg hang, ← hchar]

/-- C3: `sanitizeInput` trims, removes angle brackets, then entity-escapes:
its output never contains a literal `<` or `>`, and it equals the
character-wise translation of the trimmed input in which angle brackets
are deleted and `&`, `"`, `'` appear only as `&amp;`, `&quot;`,
`&#x27;`. -/
theorem sanitizeInput_escapes (s : String) :
    '<' ∉ (sanitizeInput s).data ∧ '>' ∉ (sanitizeInput s).data ∧
    (sanitizeInput s).data =
      ((jsTrim s).data.map (fun c =>
        if c = '<' ∨ c = '>' then []
        else if c = '&' then "&amp;".data
        else if c = '"' then "&quot;".data
        else if c = '\'' then "&#x27;".data
        else [c])).flatten :=
  ⟨(escapeList_no_angle _).1, (escapeList_no_angle _).2,
   escapeList_removeAngles _⟩

set_option maxRecDepth 8000 in
/-- C8: `formatInquiry` always succeeds (it is a total function), and its
`formattedText` contains the record's `parentName` and `childName`
verbatim: the fixed template around them contains non-whitespace on both
sides, so the final trim never reaches them. -/
theorem formatInquiry_contains_names (d : InquiryFormData) (now : String) :
    strContains (formatInquiry d now).formattedText d.parentName ∧
    strContains (formatInquiry d now).formattedText d.childName := by
  have hft : (formatInquiry d now).formattedText = jsTrim (preTrimText d now) := rfl
  have hdata : ∀ s : String, (jsTrim s).data = trimL s.data := fun s => rfl
  constructor
  · show ∃ u v, (formatInquiry d now).formattedText.data = u ++ d.parentName.data ++ v
    rw [hft, hdata]
    refine trim_contains_mid
      ("\n📚 *New Inquiry - Kumagaya Kids English*\n\n👨‍👩‍👧 *Parent Information:*\n• Name: ").data
      d.parentName.data
      (("\n• Email: " ++ d.email
        ++ "\n• Phone: " ++ d.phone
        ++ "\n\n👶 *Child Information:*\n• Name: " ++ d.childName
        ++ "\n• Age: " ++ toString d.childAge ++ " years old"
        ++ "\n\n📖 *Program Interest:*\n" ++ resolveProgram d.preferredProgram
        ++ "\n\n💬 *Message:*\n" ++ messageOrDefault d.message
        ++ "\n\n---\n_Received at " ++ now ++ "_\n    ").data)
      _ ?_ ?_ ?_
    · simp [preTrimText, String.data_append, List.append_assoc]
    · exact ⟨'📚', by decide, by decide⟩
    · refine ⟨'•', ?_, by decide⟩
      simp only [String.data_append, List.append_assoc]
      exact List.mem_append_left _ (by decide)
  · show ∃ u v, (formatInquiry d now).formattedText.data = u ++ d.childName.data ++ v
    rw [hft, hdata]
    refine trim_contains_mid
      (("\n📚 *New Inquiry - Kumagaya Kids English*\n\n👨‍👩‍👧 *Parent Information:*\n• Name: "
        ++ d.parentName
        ++ "\n• Email: " ++ d.email
        ++ "\n• Phone: " ++ d.phone
        ++ "\n\n👶 *Child Information:*\n• Name: ").data)
      d.childName.data
      (("\n• Age: " ++ toString d.childAge ++ " years old"
        ++ "\n\n📖 *Program Interest:*\n" ++ resolveProgram d.preferredProgram
        ++ "\n\n💬 *Message:*\n" ++ messageOrDefault d.message
        ++ "\n\n---\n_Received at " ++ now ++ "_\n    ").data)
      _ ?_ ?_ ?_
    · simp [preTrimText, String.data_append, List.append_assoc]
    · refine ⟨'📚', ?_, by decide⟩
      simp only [String.data_append, List.append_assoc]
      exact List.mem_append_left _ (by decide)
    · refine ⟨'•', ?_, by decide⟩
      simp only [String.data_append, List.append_assoc]
      exact List.mem_append_left _ (by decide)

/-- C7: `sanitizeEmail` is idempotent — lowercasing then trimming a string
that is already lowercased and trimmed changes nothing. -/
theorem sanitizeEmail_idempotent (x : String) :
    sanitizeEmail (sanitizeEmail x) = sanitizeEmail x := by
  apply congrArg String.mk
  show trimL ((trimL (x.data.map jsLowerChar)).map jsLowerChar) =
    trimL (x.data.map jsLowerChar)
  rw [← trimL_map_lower, map_jsLower_idem, trimL_idem]

end KumagayaKids
